import Mathlib

/-!
Outline front-end glue: locale adapter, editor link handler, document creation.

A shallow embedding of

* `src/app/utils/language.ts` (`detectLanguage`, `changeLanguage`),
* `src/app/components/Editor.js` (`Editor.onClickLink`),
* `src/app/scenes/DocumentNew.js` (`DocumentNew.componentDidMount`).

JavaScript strings are Lean strings. Calls made on collaborators (router,
window, translation runtime, desktop bridge, stores) are recorded, in program
order, in the list a function returns. Platform and library functions whose
code is not part of the repository (`String.prototype.toUpperCase`, the `URL`
constructor, `isInternalUrl`, `queryString.parse`, `documents.create`,
`documentEditUrl`) are parameters of the functions that call them.
-/

namespace Outline

/-! ## JavaScript string primitives -/

/-- The array of segments of `String.prototype.split(sep)` for a separator of
one character, on the characters of the string, as its first element and the
list of the elements after it (the array is never empty): a segment ends at
each occurrence of `sep`, and the empty string has the one segment `""`. -/
def splitChars (sep : Char) : List Char → List Char × List (List Char)
  | [] => ([], [])
  | c :: cs =>
    if c = sep then ([], (splitChars sep cs).1 :: (splitChars sep cs).2)
    else (c :: (splitChars sep cs).1, (splitChars sep cs).2)

/-- `s.split(sep)` for a one-character separator: element 0 of the array and
the elements from index 1 on. -/
def split (s : String) (sep : Char) : String × List String :=
  (String.mk (splitChars sep s.data).1, (splitChars sep s.data).2.map String.mk)

/-- `String.prototype.replace(pat, rep)` with string (not regular expression)
arguments of one character each, on the characters of the string: only the
first occurrence of `pat` is replaced. -/
def replaceChars (pat rep : Char) : List Char → List Char
  | [] => []
  | c :: cs => if c = pat then rep :: cs else c :: replaceChars pat rep cs

/-- `s.replace(pat, rep)` for one-character strings `pat` and `rep`. -/
def replace (s : String) (pat rep : Char) : String :=
  String.mk (replaceChars pat rep s.data)

/-- `s[0] === c` for a one-character string `c`; `s[0]` is `undefined` on the
empty string and the comparison is then false. -/
def firstIs (s : String) (c : Char) : Bool :=
  s.data.head? == some c

/-- Joins segments with a separator character between neighbours
(`Array.prototype.join`); used to describe the tags that `split` takes apart. -/
def joinChars (sep : Char) : List (List Char) → List Char
  | [] => []
  | [seg] => seg
  | seg :: seg2 :: segs => seg ++ sep :: joinChars sep (seg2 :: segs)

/-- `segs.join(sep)` for a one-character separator. -/
def join (segs : List String) (sep : Char) : String :=
  String.mk (joinChars sep (segs.map String.data))

/-- `String.prototype.toUpperCase` on ASCII text: `a`..`z` go to `A`..`Z`,
every other ASCII character is kept. Used only at ASCII inputs. -/
def asciiUpperCase (s : String) : String :=
  String.mk (s.data.map Char.toUpper)

/-! ## `src/app/utils/language.ts` -/

/-- `detectLanguage()`; `language` is `navigator.language` and `toUpperCase`
is `String.prototype.toUpperCase`.

    const [ln, r] = navigator.language.split("-");
    const region = (r || ln).toUpperCase();
    return ln + "_" + region;

`r` is `undefined` when the array has one element; `r || ln` is `ln` when `r`
is `undefined` or the empty string. -/
def detectLanguage (toUpperCase : String → String) (language : String) : String :=
  let ln := (split language '-').1
  let region :=
    match (split language '-').2 with
    | [] => toUpperCase ln
    | r :: _ => toUpperCase (if r ≠ "" then r else ln)
  ln ++ "_" ++ region

/-- Calls that `changeLanguage` makes on its collaborators. -/
inductive LanguageCall where
  | i18nChangeLanguage (locale : String)
  | setSpellCheckerLanguages (languages : List String)
  deriving DecidableEq, Repr

/-- `changeLanguage(toLanguageString, i18n)`. `toLanguageString` is `none` for
`null` and `undefined`; `i18nLanguage` is `i18n.language`; `bridge` tells
whether `Desktop.bridge` is present (`Desktop.bridge?.` skips the call when it
is not).

    if (toLanguageString && i18n.language !== toLanguageString) {
      const locale = toLanguageString.replace("_", "-");
      i18n.changeLanguage(locale);
      Desktop.bridge?.setSpellCheckerLanguages(["en-US", locale]);
    }
-/
def changeLanguage (toLanguageString : Option String) (i18nLanguage : String)
    (bridge : Bool) : List LanguageCall :=
  match toLanguageString with
  | none => []
  | some s =>
    if s ≠ "" ∧ i18nLanguage ≠ s then
      let locale := replace s '_' '-'
      LanguageCall.i18nChangeLanguage locale ::
        (if bridge then [LanguageCall.setSpellCheckerLanguages ["en-US", locale]] else [])
    else []

/-! ## `src/app/components/Editor.js` -/

/-- An exception value: the `name` and `message` of an `Error` object. The
`URL` constructor throws a `TypeError` on a string that is not a valid
absolute URL. -/
structure JSError where
  name : String
  message : String
  deriving DecidableEq, Repr

deriving instance DecidableEq for Except

/-- The fields of a parsed `URL` object. -/
structure URL where
  origin : String
  pathname : String
  search : String
  hash : String
  deriving DecidableEq, Repr

/-- The fields of the click event that `onClickLink` reads. -/
structure MouseEvent where
  metaKey : Bool
  shiftKey : Bool
  deriving DecidableEq, Repr

/-- Calls and assignments that `onClickLink` makes on the window and the router. -/
inductive EditorCall where
  | setLocationHref (href : String)
  | historyPush (path : String)
  | windowOpen (url : String) (target : String)
  deriving DecidableEq, Repr

/-- `Editor.onClickLink(href, event)`. `isInternalUrl` is `utils/isInternalUrl`
and `newURL` is the `URL` constructor, which throws on a malformed string. The
result is `.error` when an exception leaves the function.

    if (href[0] === "#") { window.location.href = href; return; }
    if (isInternalUrl(href) && !event.metaKey && !event.shiftKey) {
      let navigateTo = href;
      if (href[0] !== "/") {
        try { const url = new URL(href); navigateTo = url.pathname + url.hash; }
        catch (err) { navigateTo = href; }
      }
      this.props.history.push(navigateTo);
    } else if (href) {
      window.open(href, "_blank");
    }
-/
def onClickLink (isInternalUrl : String → Bool) (newURL : String → Except JSError URL)
    (href : String) (event : MouseEvent) : Except JSError (List EditorCall) :=
  if firstIs href '#' then
    pure [EditorCall.setLocationHref href]
  else if isInternalUrl href && !event.metaKey && !event.shiftKey then do
    let navigateTo ←
      if !firstIs href '/' then
        try
          let url ← newURL href
          pure (url.pathname ++ url.hash)
        catch _ =>
          pure href
      else
        pure href
    pure [EditorCall.historyPush navigateTo]
  else if href ≠ "" then
    pure [EditorCall.windowOpen href "_blank"]
  else
    pure []

/-- A `URL` constructor for the examples: it agrees with the platform
constructor on the one well-formed href below and on `"http://"`, which the
platform rejects for its empty host, and rejects every other string. -/
def sampleURL (href : String) : Except JSError URL :=
  if href = "https://app.getoutline.com/doc/welcome-a1b2?ref=mail#intro" then
    .ok ⟨"https://app.getoutline.com", "/doc/welcome-a1b2", "?ref=mail", "#intro"⟩
  else
    .error ⟨"TypeError", "Invalid URL"⟩

/-- A classifier for the examples: root-relative hrefs, hrefs under the origin
`https://app.getoutline.com` and hrefs that begin with `http://` count as
internal; the last makes the malformed href `http://` an internal one. -/
def sampleInternal (href : String) : Bool :=
  firstIs href '/' || "https://app.getoutline.com".data.isPrefixOf href.data
    || "http://".data.isPrefixOf href.data

/-! ## `src/app/scenes/DocumentNew.js` -/

/-- A property of the object `queryString.parse` returns: absent, `null` (a
key with no `=`), a string, or an array of strings (a repeated key). -/
inductive QueryValue where
  | undefined
  | null
  | str (value : String)
  | arr (values : List String)
  deriving DecidableEq, Repr

/-- The argument of `documents.create`. -/
structure CreateRequest where
  collectionId : String
  parentDocumentId : QueryValue
  templateId : QueryValue
  title : String
  text : String
  deriving DecidableEq, Repr

/-- How the promise returned by `documents.create` settles, if it does. -/
inductive Settlement (Document : Type) where
  | resolved (document : Document)
  | rejected (err : JSError)
  | pending
  deriving DecidableEq, Repr

/-- Calls that `componentDidMount` makes on its collaborators. `historyPush`
is part of the router interface and is listed to state that it is not used. -/
inductive SceneCall where
  | documentsCreate (request : CreateRequest)
  | historyReplace (path : String)
  | historyPush (path : String)
  | historyGoBack
  | showToast (message : String)
  deriving DecidableEq, Repr

/-- `DocumentNew.componentDidMount()`. `parse` is `queryString.parse` (a
search string to the properties of the parsed object), `create` tells how the
promise of `documents.create` settles for a request, `search` is
`this.props.location.search` and `id` is `this.props.match.params.id`.

    const params = queryString.parse(this.props.location.search);
    try {
      const document = await this.props.documents.create({
        collectionId: this.props.match.params.id,
        parentDocumentId: params.parentDocumentId,
        templateId: params.templateId,
        title: "",
        text: "",
      });
      this.props.history.replace(documentEditUrl(document));
    } catch (err) {
      this.props.ui.showToast("Couldn’t create the document, try again?");
      this.props.history.goBack();
    }
-/
def componentDidMount {Document : Type} (parse : String → String → QueryValue)
    (create : CreateRequest → Settlement Document) (documentEditUrl : Document → String)
    (search : String) (id : String) : List SceneCall :=
  let params := parse search
  let request : CreateRequest :=
    ⟨id, params "parentDocumentId", params "templateId", "", ""⟩
  SceneCall.documentsCreate request ::
    match create request with
    | .resolved document => [SceneCall.historyReplace (documentEditUrl document)]
    | .rejected _ => [SceneCall.showToast "Couldn’t create the document, try again?",
        SceneCall.historyGoBack]
    | .pending => []

/-- The text of a query parameter before its first `=`. -/
def paramKey : List Char → List Char
  | [] => []
  | c :: cs => if c = '=' then [] else c :: paramKey cs

/-- The text of a query parameter after its first `=`, if it has one. -/
def paramValue : List Char → Option (List Char)
  | [] => none
  | c :: cs => if c = '=' then some cs else paramValue cs

/-- The behaviour of `queryString.parse` on search strings in which no key is
repeated and no percent escape or `+` occurs: a leading `?` is dropped, the
rest is split on `&`, and each parameter is split at its first `=`. Used for
the examples only. -/
def parseQuery (search : String) (key : String) : QueryValue :=
  let body := match search.data with
    | '?' :: cs => cs
    | cs => cs
  let params := ((splitChars '&' body).1 :: (splitChars '&' body).2).filter (fun p => p ≠ [])
  match params.find? (fun p => paramKey p = key.data) with
  | none => QueryValue.undefined
  | some p =>
    match paramValue p with
    | none => QueryValue.null
    | some v => QueryValue.str (String.mk v)

/-- An edit-URL builder for the examples, on documents that are their id. -/
def sampleEditUrl (document : String) : String :=
  "/doc/" ++ document ++ "/edit"

/-! ## Lemmas on the string primitives -/

theorem splitChars_of_not_mem (sep : Char) (l : List Char) (h : sep ∉ l) :
    splitChars sep l = (l, []) := by
  induction l with
  | nil => rfl
  | cons c cs ih =>
    have hc : c ≠ sep := fun e => h (by simp [e])
    have hcs : sep ∉ cs := fun m => h (List.mem_cons_of_mem _ m)
    simp [splitChars, hc, ih hcs]

theorem splitChars_append_sep (sep : Char) (l r : List Char) (h : sep ∉ l) :
    splitChars sep (l ++ sep :: r) = (l, (splitChars sep r).1 :: (splitChars sep r).2) := by
  induction l with
  | nil => simp [splitChars]
  | cons c cs ih =>
    have hc : c ≠ sep := fun e => h (by simp [e])
    have hcs : sep ∉ cs := fun m => h (List.mem_cons_of_mem _ m)
    simp [splitChars, hc, ih hcs]

theorem splitChars_joinChars (sep : Char) (segs : List (List Char)) (seg : List Char)
    (h : ∀ s ∈ seg :: segs, sep ∉ s) :
    splitChars sep (joinChars sep (seg :: segs)) = (seg, segs) := by
  induction segs generalizing seg with
  | nil => exact splitChars_of_not_mem sep seg (h seg (by simp))
  | cons seg2 segs ih =>
    have h2 : ∀ s ∈ seg2 :: segs, sep ∉ s := fun s m => h s (List.mem_cons_of_mem _ m)
    simp only [joinChars]
    rw [splitChars_append_sep sep seg _ (h seg (by simp)), ih seg2 h2]

theorem joinChars_splitChars (sep : Char) (l : List Char) :
    joinChars sep ((splitChars sep l).1 :: (splitChars sep l).2) = l := by
  induction l with
  | nil => rfl
  | cons c cs ih =>
    by_cases hc : c = sep
    · simp only [splitChars, hc, if_true, joinChars, List.nil_append]
      rw [ih]
    · simp only [splitChars, hc, if_false]
      cases hs : (splitChars sep cs).2 with
      | nil =>
        rw [hs] at ih
        simpa [joinChars] using ih
      | cons s2 ss =>
        rw [hs] at ih
        simpa [joinChars] using ih

theorem splitChars_sep_free (sep : Char) (l : List Char) :
    ∀ s ∈ (splitChars sep l).1 :: (splitChars sep l).2, sep ∉ s := by
  induction l with
  | nil => simp [splitChars]
  | cons c cs ih =>
    by_cases hc : c = sep
    · intro s hs
      simp only [splitChars, hc, if_true, List.mem_cons] at hs
      rcases hs with rfl | hs
      · simp
      · exact ih s (List.mem_cons.mpr hs)
    · intro s hs
      simp only [splitChars, hc, if_false, List.mem_cons] at hs
      rcases hs with rfl | hs
      · intro m
        rcases List.mem_cons.mp m with e | m
        · exact hc e.symm
        · exact ih _ (by simp) m
      · exact ih s (List.mem_cons_of_mem _ hs)

theorem replaceChars_of_not_mem (pat rep : Char) (l : List Char) (h : pat ∉ l) :
    replaceChars pat rep l = l := by
  induction l with
  | nil => rfl
  | cons c cs ih =>
    have hc : c ≠ pat := fun e => h (by simp [e])
    have hcs : pat ∉ cs := fun m => h (List.mem_cons_of_mem _ m)
    simp [replaceChars, hc, ih hcs]

theorem replaceChars_undo (pat rep : Char) (l : List Char) (h : rep ∉ l) :
    replaceChars rep pat (replaceChars pat rep l) = l := by
  induction l with
  | nil => rfl
  | cons c cs ih =>
    have hc : c ≠ rep := fun e => h (by simp [e])
    have hcs : rep ∉ cs := fun m => h (List.mem_cons_of_mem _ m)
    by_cases hp : c = pat
    · simp [replaceChars, hp]
    · simp [replaceChars, hp, hc, ih hcs]

theorem split_join (sep : Char) (s0 : String) (rest : List String)
    (h : ∀ s ∈ s0 :: rest, sep ∉ s.data) : split (join (s0 :: rest) sep) sep = (s0, rest) := by
  have h2 : ∀ s ∈ s0.data :: rest.map String.data, sep ∉ s := by
    intro s hs
    rcases List.mem_cons.mp hs with rfl | hs
    · exact h s0 (by simp)
    · obtain ⟨t, ht, rfl⟩ := List.mem_map.mp hs
      exact h t (List.mem_cons_of_mem _ ht)
  have h3 : (rest.map String.data).map String.mk = rest := by
    rw [List.map_map]
    exact (List.map_congr_left (fun x _ => rfl)).trans (List.map_id rest)
  simp only [split, join, List.map_cons]
  rw [splitChars_joinChars sep _ _ h2, h3]

theorem join_split (sep : Char) (t : String) :
    join ((split t sep).1 :: (split t sep).2) sep = t := by
  have h3 : ((splitChars sep t.data).2.map String.mk).map String.data =
      (splitChars sep t.data).2 := by
    rw [List.map_map]
    exact (List.map_congr_left (fun x _ => rfl)).trans (List.map_id _)
  simp only [split, join, List.map_cons]
  rw [h3, joinChars_splitChars]

theorem split_sep_free (sep : Char) (t : String) :
    ∀ s ∈ (split t sep).1 :: (split t sep).2, sep ∉ s.data := by
  intro s hs
  simp only [split, List.mem_cons, List.mem_map] at hs
  rcases hs with rfl | ⟨x, hx, rfl⟩
  · exact splitChars_sep_free sep t.data _ (by simp)
  · exact splitChars_sep_free sep t.data _ (List.mem_cons_of_mem _ hx)

theorem split_of_not_mem (sep : Char) (l : String) (h : sep ∉ l.data) :
    split l sep = (l, []) := by
  simp [split, splitChars_of_not_mem sep l.data h]

theorem split_two (sep : Char) (l r : String) (hl : sep ∉ l.data) (hr : sep ∉ r.data) :
    split (l ++ String.mk [sep] ++ r) sep = (l, [r]) := by
  simp [split, String.data_append, splitChars_append_sep sep l.data r.data hl,
    splitChars_of_not_mem sep r.data hr]

theorem replaceChars_append_pat (pat rep : Char) (a b : List Char) (h : pat ∉ a) :
    replaceChars pat rep (a ++ pat :: b) = a ++ rep :: b := by
  induction a with
  | nil => simp [replaceChars]
  | cons c cs ih =>
    have hc : c ≠ pat := fun e => h (by simp [e])
    have hcs : pat ∉ cs := fun m => h (List.mem_cons_of_mem _ m)
    simp [replaceChars, hc, ih hcs]

theorem replace_undo (pat rep : Char) (x : String) (h : rep ∉ x.data) :
    replace (replace x pat rep) rep pat = x := by
  simp [replace, replaceChars_undo pat rep x.data h]

theorem replace_append_pat (pat rep : Char) (a b : String) (h : pat ∉ a.data) :
    replace (a ++ String.mk [pat] ++ b) pat rep = a ++ String.mk [rep] ++ b := by
  simp only [replace, String.data_append, List.append_assoc, List.singleton_append,
    replaceChars_append_pat pat rep a.data b.data h]
  apply String.ext
  simp [String.data_append]

/-! ## Theorems on `detectLanguage` and `changeLanguage` -/

/-- C8: on a tag `l-R` with one hyphen and non-empty `R`, `detectLanguage`
returns `l_` followed by the upper-cased `R`; on a bare tag `l` it returns
`l_` followed by the upper-cased `l`; `en` gives `en_EN` and `en-GB` gives
`en_GB`. -/
theorem detectLanguage_underscore_form (toUpperCase : String → String) (l : String)
    (hl : '-' ∉ l.data) :
    (∀ R : String, '-' ∉ R.data → R ≠ "" →
      detectLanguage toUpperCase (l ++ "-" ++ R) = l ++ "_" ++ toUpperCase R) ∧
    detectLanguage toUpperCase l = l ++ "_" ++ toUpperCase l ∧
    detectLanguage asciiUpperCase "en" = "en_EN" ∧
    detectLanguage asciiUpperCase "en-GB" = "en_GB" := by
  refine ⟨?_, ?_, by decide, by decide⟩
  · intro R hR hne
    have := split_two '-' l R hl hR
    change split (l ++ "-" ++ R) '-' = (l, [R]) at this
    simp [detectLanguage, this, hne]
  · simp [detectLanguage, split_of_not_mem '-' l hl]

theorem detectLanguage_underscore_form_witness :
    detectLanguage asciiUpperCase ("fr" ++ "-" ++ "ca") = "fr" ++ "_" ++ asciiUpperCase "ca" ∧
    detectLanguage asciiUpperCase "fr" = "fr" ++ "_" ++ asciiUpperCase "fr" :=
  ⟨(detectLanguage_underscore_form asciiUpperCase "fr" (by decide)).1 "ca" (by decide)
      (by decide),
    (detectLanguage_underscore_form asciiUpperCase "fr" (by decide)).2.1⟩

/-- C10: every tag is the join with `-` of hyphen-free segments `s0, s1, ...`;
`detectLanguage` returns `s0`, unchanged, then `_`, then the upper-cased `s1`
if there is a non-empty `s1` and the upper-cased `s0` otherwise; segments after
the second are ignored. `zh-Hant-TW` gives `zh_HANT` and `en-` gives `en_EN`. -/
theorem detectLanguage_segments (toUpperCase : String → String) :
    (∀ t : String, ∃ s0 rest, (∀ s ∈ s0 :: rest, '-' ∉ s.data) ∧ join (s0 :: rest) '-' = t) ∧
    (∀ (s0 : String) (rest : List String), (∀ s ∈ s0 :: rest, '-' ∉ s.data) →
      detectLanguage toUpperCase (join (s0 :: rest) '-') =
        s0 ++ "_" ++ toUpperCase
          (match rest with
           | [] => s0
           | s1 :: _ => if s1 ≠ "" then s1 else s0)) ∧
    detectLanguage asciiUpperCase "zh-Hant-TW" = "zh_HANT" ∧
    detectLanguage asciiUpperCase "en-" = "en_EN" := by
  refine ⟨?_, ?_, by decide, by decide⟩
  · intro t
    exact ⟨(split t '-').1, (split t '-').2, split_sep_free '-' t, join_split '-' t⟩
  · intro s0 rest h
    simp only [detectLanguage, split_join '-' s0 rest h]
    cases rest <;> rfl

theorem detectLanguage_segments_witness :
    detectLanguage asciiUpperCase (join ["sr", "", "RS", "x"] '-') =
      "sr" ++ "_" ++ asciiUpperCase "sr" :=
  (detectLanguage_segments asciiUpperCase).2.1 "sr" ["", "RS", "x"] (by decide)

/-- C9: the conversion `toLanguageString.replace("_", "-")` is defined on every
string, and on identifiers that hold no hyphen it is injective: two of them
with the same runtime form are equal, and replacing the hyphen of the runtime
form by an underscore gives the storage form back. -/
theorem replace_lossless (x y : String) (hx : '-' ∉ x.data) (hy : '-' ∉ y.data)
    (h : replace x '_' '-' = replace y '_' '-') :
    x = y ∧ replace (replace x '_' '-') '-' '_' = x := by
  have ex := replace_undo '_' '-' x hx
  have ey := replace_undo '_' '-' y hy
  refine ⟨?_, ex⟩
  rw [← ex, h, ey]

theorem replace_lossless_witness :
    "pt_BR" = "pt_BR" ∧ replace (replace "pt_BR" '_' '-') '-' '_' = "pt_BR" :=
  replace_lossless "pt_BR" "pt_BR" (by decide) (by decide) rfl

/-- C7: for a non-empty target locale that differs from the active locale,
`changeLanguage` calls `i18n.changeLanguage` once with the target in which the
first underscore is replaced by a hyphen; with a desktop bridge it then calls
`setSpellCheckerLanguages` once with `["en-US", locale]`, without one it makes
no further call. Target `fr_FR` with active `en-US` gives `fr-FR`. -/
theorem changeLanguage_applies (target active : String) (hne : target ≠ "")
    (hdiff : target ≠ active) :
    changeLanguage (some target) active true =
      [LanguageCall.i18nChangeLanguage (replace target '_' '-'),
       LanguageCall.setSpellCheckerLanguages ["en-US", replace target '_' '-']] ∧
    changeLanguage (some target) active false =
      [LanguageCall.i18nChangeLanguage (replace target '_' '-')] ∧
    (∀ a b : String, '_' ∉ a.data → target = a ++ "_" ++ b →
      replace target '_' '-' = a ++ "-" ++ b) ∧
    changeLanguage (some "fr_FR") "en-US" true =
      [LanguageCall.i18nChangeLanguage "fr-FR",
       LanguageCall.setSpellCheckerLanguages ["en-US", "fr-FR"]] := by
  have hd : ¬ active = target := fun e => hdiff e.symm
  refine ⟨?_, ?_, ?_, by decide⟩
  · simp [changeLanguage, hne, hd]
  · simp [changeLanguage, hne, hd]
  · intro a b ha e
    rw [e]
    exact replace_append_pat '_' '-' a b ha

theorem changeLanguage_applies_witness :
    changeLanguage (some "de_DE") "en-US" true =
      [LanguageCall.i18nChangeLanguage (replace "de_DE" '_' '-'),
       LanguageCall.setSpellCheckerLanguages ["en-US", replace "de_DE" '_' '-']] ∧
    replace "de_DE" '_' '-' = "de" ++ "-" ++ "DE" :=
  ⟨(changeLanguage_applies "de_DE" "en-US" (by decide) (by decide)).1,
    (changeLanguage_applies "de_DE" "en-US" (by decide) (by decide)).2.2.1 "de" "DE"
      (by decide) rfl⟩

/-- C2 (the code at the failing input): with target `en_US` and the active
locale already `en-US`, `changeLanguage` does not return without a call: it
compares the active locale with the underscore form, finds them different, and
calls `i18n.changeLanguage("en-US")` and `setSpellCheckerLanguages`. -/
theorem changeLanguage_same_locale_still_calls :
    replace "en_US" '_' '-' = "en-US" ∧
    changeLanguage (some "en_US") "en-US" true =
      [LanguageCall.i18nChangeLanguage "en-US",
       LanguageCall.setSpellCheckerLanguages ["en-US", "en-US"]] ∧
    changeLanguage (some "en_US") "en-US" false =
      [LanguageCall.i18nChangeLanguage "en-US"] := by
  decide

/-! ## Theorems on `Editor.onClickLink` -/

/-- C1 (as stated, refuted): with the meta key pressed, the href `#intro` is
assigned to `window.location.href` and the empty href causes no call at all;
in neither case is `window.open` called. -/
theorem onClickLink_modifier_not_always_open :
    onClickLink sampleInternal sampleURL "#intro" ⟨true, false⟩ =
      .ok [EditorCall.setLocationHref "#intro"] ∧
    onClickLink sampleInternal sampleURL "#intro" ⟨true, false⟩ ≠
      .ok [EditorCall.windowOpen "#intro" "_blank"] ∧
    onClickLink sampleInternal sampleURL "" ⟨true, false⟩ = .ok [] ∧
    onClickLink sampleInternal sampleURL "" ⟨true, false⟩ ≠
      .ok [EditorCall.windowOpen "" "_blank"] := by
  decide

/-- C1 (amended): when `metaKey` or `shiftKey` is set, `onClickLink` returns
without an exception and never calls `history.push`, whatever the href and its
classification; if the href is non-empty and does not begin with `#`, its one
call is `window.open(href, "_blank")`; if the href begins with `#`, its one
call is the assignment of the href to `window.location.href`; if the href is
empty, it makes no call at all. -/
theorem onClickLink_modifier (isInternalUrl : String → Bool)
    (newURL : String → Except JSError URL) (href : String) (event : MouseEvent)
    (hmod : event.metaKey = true ∨ event.shiftKey = true) :
    (∃ calls, onClickLink isInternalUrl newURL href event = .ok calls ∧
      ∀ path, EditorCall.historyPush path ∉ calls) ∧
    (firstIs href '#' = false → href ≠ "" →
      onClickLink isInternalUrl newURL href event =
        .ok [EditorCall.windowOpen href "_blank"]) ∧
    (firstIs href '#' = true →
      onClickLink isInternalUrl newURL href event =
        .ok [EditorCall.setLocationHref href]) ∧
    (href = "" → onClickLink isInternalUrl newURL href event = .ok []) := by
  have hcond : (isInternalUrl href && !event.metaKey && !event.shiftKey) = false := by
    rcases hmod with h | h <;> simp [h]
  refine ⟨?_, ?_, ?_, ?_⟩
  · by_cases h1 : firstIs href '#' = true
    · exact ⟨[EditorCall.setLocationHref href], by simp [onClickLink, h1, pure, Except.pure],
        by simp⟩
    · by_cases h2 : href = ""
      · refine ⟨[], ?_, by simp⟩
        simp only [onClickLink]
        rw [if_neg h1, hcond]
        simp [h2, pure, Except.pure]
      · exact ⟨[EditorCall.windowOpen href "_blank"],
          by simp [onClickLink, h1, hcond, h2, pure, Except.pure], by simp⟩
  · intro h1 h2
    simp [onClickLink, h1, hcond, h2, pure, Except.pure]
  · intro h1
    simp [onClickLink, h1, pure, Except.pure]
  · intro h2
    have h1 : ¬ firstIs href '#' = true := by
      rw [h2]
      decide
    simp only [onClickLink]
    rw [if_neg h1, hcond]
    simp [h2, pure, Except.pure]

theorem onClickLink_modifier_witness :
    sampleInternal "/doc/welcome-a1b2" = true ∧
    onClickLink sampleInternal sampleURL "/doc/welcome-a1b2" ⟨false, true⟩ =
      .ok [EditorCall.windowOpen "/doc/welcome-a1b2" "_blank"] ∧
    onClickLink sampleInternal sampleURL "#summary" ⟨true, true⟩ =
      .ok [EditorCall.setLocationHref "#summary"] ∧
    onClickLink (fun _ => true) sampleURL "" ⟨false, true⟩ = .ok [] :=
  ⟨by decide,
    (onClickLink_modifier sampleInternal sampleURL "/doc/welcome-a1b2"
      ⟨false, true⟩ (Or.inr rfl)).2.1 (by decide) (by decide),
    (onClickLink_modifier sampleInternal sampleURL "#summary"
      ⟨true, true⟩ (Or.inl rfl)).2.2.1 (by decide),
    (onClickLink_modifier (fun _ => true) sampleURL ""
      ⟨false, true⟩ (Or.inr rfl)).2.2.2 rfl⟩

/-- C4: for an href whose first character is `#`, whatever the event and the
classification, `onClickLink` assigns the href to `window.location.href` and
makes no other call (neither `history.push` nor `window.open`). -/
theorem onClickLink_hash (isInternalUrl : String → Bool)
    (newURL : String → Except JSError URL) (href : String) (event : MouseEvent)
    (h : firstIs href '#' = true) :
    onClickLink isInternalUrl newURL href event = .ok [EditorCall.setLocationHref href] := by
  simp [onClickLink, h, pure, Except.pure]

theorem onClickLink_hash_witness :
    firstIs "#heading-2" '#' = true ∧
    onClickLink sampleInternal sampleURL "#heading-2" ⟨false, false⟩ =
      .ok [EditorCall.setLocationHref "#heading-2"] :=
  ⟨by decide, onClickLink_hash sampleInternal sampleURL "#heading-2" ⟨false, false⟩
    (by decide)⟩

/-- C3: for an href that does not begin with `#`, is classified internal and
is clicked with neither modifier, the one call of `onClickLink` is a
`history.push`; its argument is the href itself when the href begins with `/`,
and `pathname + hash` of the parsed URL when it does not and parses. -/
theorem onClickLink_internal (isInternalUrl : String → Bool)
    (newURL : String → Except JSError URL) (href : String) (event : MouseEvent)
    (hhash : firstIs href '#' = false) (hint : isInternalUrl href = true)
    (hmeta : event.metaKey = false) (hshift : event.shiftKey = false) :
    (∃ path, onClickLink isInternalUrl newURL href event =
      .ok [EditorCall.historyPush path]) ∧
    (firstIs href '/' = true →
      onClickLink isInternalUrl newURL href event = .ok [EditorCall.historyPush href]) ∧
    (∀ url : URL, firstIs href '/' = false → newURL href = .ok url →
      onClickLink isInternalUrl newURL href event =
        .ok [EditorCall.historyPush (url.pathname ++ url.hash)]) := by
  refine ⟨?_, ?_, ?_⟩
  · by_cases hs : firstIs href '/' = true
    · exact ⟨href, by
        simp [onClickLink, hhash, hint, hmeta, hshift, hs, pure, Except.pure, bind,
          Except.bind]⟩
    · cases hu : newURL href with
      | ok url =>
        exact ⟨url.pathname ++ url.hash, by
          simp [onClickLink, hhash, hint, hmeta, hshift, hs, hu, pure, Except.pure, bind,
            Except.bind, tryCatch, tryCatchThe, MonadExcept.tryCatch,
            MonadExceptOf.tryCatch, Except.tryCatch]⟩
      | error e =>
        exact ⟨href, by
          simp [onClickLink, hhash, hint, hmeta, hshift, hs, hu, pure, Except.pure, bind,
            Except.bind, tryCatch, tryCatchThe, MonadExcept.tryCatch,
            MonadExceptOf.tryCatch, Except.tryCatch]⟩
  · intro hs
    simp [onClickLink, hhash, hint, hmeta, hshift, hs, pure, Except.pure, bind, Except.bind]
  · intro url hs hu
    simp [onClickLink, hhash, hint, hmeta, hshift, hs, hu, pure, Except.pure, bind,
      Except.bind, tryCatch, tryCatchThe, MonadExcept.tryCatch, MonadExceptOf.tryCatch,
      Except.tryCatch]

theorem onClickLink_internal_witness :
    onClickLink sampleInternal sampleURL
      "https://app.getoutline.com/doc/welcome-a1b2?ref=mail#intro" ⟨false, false⟩ =
      .ok [EditorCall.historyPush ("/doc/welcome-a1b2" ++ "#intro")] ∧
    onClickLink sampleInternal sampleURL "/doc/welcome-a1b2?ref=mail" ⟨false, false⟩ =
      .ok [EditorCall.historyPush "/doc/welcome-a1b2?ref=mail"] :=
  ⟨(onClickLink_internal sampleInternal sampleURL
      "https://app.getoutline.com/doc/welcome-a1b2?ref=mail#intro" ⟨false, false⟩
      (by decide) (by decide) rfl rfl).2.2
      ⟨"https://app.getoutline.com", "/doc/welcome-a1b2", "?ref=mail", "#intro"⟩
      (by decide) (by decide),
    (onClickLink_internal sampleInternal sampleURL "/doc/welcome-a1b2?ref=mail"
      ⟨false, false⟩ (by decide) (by decide) rfl rfl).2.1 (by decide)⟩

/-- C5: for an href that is classified internal, begins with neither `#` nor
`/`, is clicked with neither modifier and is rejected by the `URL`
constructor, `onClickLink` returns without an exception and its one call is
`history.push` with the href itself. -/
theorem onClickLink_malformed (isInternalUrl : String → Bool)
    (newURL : String → Except JSError URL) (href : String) (event : MouseEvent)
    (err : JSError) (hhash : firstIs href '#' = false) (hslash : firstIs href '/' = false)
    (hint : isInternalUrl href = true) (hmeta : event.metaKey = false)
    (hshift : event.shiftKey = false) (hfail : newURL href = .error err) :
    onClickLink isInternalUrl newURL href event = .ok [EditorCall.historyPush href] := by
  simp [onClickLink, hhash, hslash, hint, hmeta, hshift, hfail, pure, Except.pure, bind,
    Except.bind, tryCatch, tryCatchThe, MonadExcept.tryCatch, MonadExceptOf.tryCatch,
    Except.tryCatch]

theorem onClickLink_malformed_witness :
    sampleURL "http://" = .error ⟨"TypeError", "Invalid URL"⟩ ∧
    onClickLink sampleInternal sampleURL "http://" ⟨false, false⟩ =
      .ok [EditorCall.historyPush "http://"] :=
  ⟨by decide, onClickLink_malformed sampleInternal sampleURL "http://" ⟨false, false⟩
    ⟨"TypeError", "Invalid URL"⟩ (by decide) (by decide) (by decide) rfl rfl
    (by decide)⟩

/-! ## Theorems on `DocumentNew.componentDidMount` -/

/-- C6: every mount with route parameter `id` and query string `search`,
however the request settles or if it never does, issues exactly one create
request, as its first call, with `collectionId` the route parameter,
`parentDocumentId` and `templateId` read from the parsed query, and empty
`title` and `text`, and never calls `history.push`; while the request is
pending there is no further call. If
the request resolves with a document, the one further call is
`history.replace(documentEditUrl(document))`; if it rejects, the further calls
are `showToast` with the fixed message and then `history.goBack()`. With
`id = "c1"` and `search = "?templateId=t1"` the request has `parentDocumentId`
undefined and `templateId` `"t1"`. -/
theorem componentDidMount_flow {Document : Type} (parse : String → String → QueryValue)
    (create : CreateRequest → Settlement Document) (documentEditUrl : Document → String)
    (search id : String) :
    (∀ document : Document,
      create ⟨id, parse search "parentDocumentId", parse search "templateId", "", ""⟩ =
        Settlement.resolved document →
      componentDidMount parse create documentEditUrl search id =
        [SceneCall.documentsCreate
           ⟨id, parse search "parentDocumentId", parse search "templateId", "", ""⟩,
         SceneCall.historyReplace (documentEditUrl document)]) ∧
    (∀ err : JSError,
      create ⟨id, parse search "parentDocumentId", parse search "templateId", "", ""⟩ =
        Settlement.rejected err →
      componentDidMount parse create documentEditUrl search id =
        [SceneCall.documentsCreate
           ⟨id, parse search "parentDocumentId", parse search "templateId", "", ""⟩,
         SceneCall.showToast "Couldn’t create the document, try again?",
         SceneCall.historyGoBack]) ∧
    (∃ rest : List SceneCall,
      componentDidMount parse create documentEditUrl search id =
        SceneCall.documentsCreate
          ⟨id, parse search "parentDocumentId", parse search "templateId", "", ""⟩ :: rest ∧
      (∀ request, SceneCall.documentsCreate request ∉ rest) ∧
      (∀ path, SceneCall.historyPush path ∉ rest)) ∧
    (create ⟨id, parse search "parentDocumentId", parse search "templateId", "", ""⟩ =
        Settlement.pending →
      componentDidMount parse create documentEditUrl search id =
        [SceneCall.documentsCreate
           ⟨id, parse search "parentDocumentId", parse search "templateId", "", ""⟩]) ∧
    componentDidMount parseQuery (fun _ => Settlement.resolved "d1") sampleEditUrl
      "?templateId=t1" "c1" =
      [SceneCall.documentsCreate ⟨"c1", QueryValue.undefined, QueryValue.str "t1", "", ""⟩,
       SceneCall.historyReplace "/doc/d1/edit"] ∧
    componentDidMount parseQuery
      (fun _ => (Settlement.rejected ⟨"Error", "Network error"⟩ : Settlement String))
      sampleEditUrl "?templateId=t1" "c1" =
      [SceneCall.documentsCreate ⟨"c1", QueryValue.undefined, QueryValue.str "t1", "", ""⟩,
       SceneCall.showToast "Couldn’t create the document, try again?",
       SceneCall.historyGoBack] := by
  refine ⟨?_, ?_, ?_, ?_, by decide, by decide⟩
  · intro document h
    simp [componentDidMount, h]
  · intro err h
    simp [componentDidMount, h]
  · cases h : create ⟨id, parse search "parentDocumentId", parse search "templateId", "", ""⟩
      with
    | resolved document =>
      exact ⟨[SceneCall.historyReplace (documentEditUrl document)],
        by simp [componentDidMount, h], by simp, by simp⟩
    | rejected err =>
      exact ⟨[SceneCall.showToast "Couldn’t create the document, try again?",
        SceneCall.historyGoBack], by simp [componentDidMount, h], by simp, by simp⟩
    | pending =>
      exact ⟨[], by simp [componentDidMount, h], by simp, by simp⟩
  · intro h
    simp [componentDidMount, h]

theorem componentDidMount_flow_witness :
    componentDidMount parseQuery (fun _ => Settlement.resolved "d1") sampleEditUrl
      "?templateId=t1" "c1" =
      [SceneCall.documentsCreate
         ⟨"c1", parseQuery "?templateId=t1" "parentDocumentId",
           parseQuery "?templateId=t1" "templateId", "", ""⟩,
       SceneCall.historyReplace (sampleEditUrl "d1")] ∧
    componentDidMount parseQuery
      (fun _ => (Settlement.rejected ⟨"TypeError", "Failed to fetch"⟩ :
        Settlement String)) sampleEditUrl "?templateId=t1" "c1" =
      [SceneCall.documentsCreate
         ⟨"c1", parseQuery "?templateId=t1" "parentDocumentId",
           parseQuery "?templateId=t1" "templateId", "", ""⟩,
       SceneCall.showToast "Couldn’t create the document, try again?",
       SceneCall.historyGoBack] ∧
    componentDidMount parseQuery (fun _ => (Settlement.pending : Settlement String))
      sampleEditUrl "?templateId=t1" "c1" =
      [SceneCall.documentsCreate
         ⟨"c1", parseQuery "?templateId=t1" "parentDocumentId",
           parseQuery "?templateId=t1" "templateId", "", ""⟩] :=
  ⟨(componentDidMount_flow parseQuery (fun _ => Settlement.resolved "d1") sampleEditUrl
      "?templateId=t1" "c1").1 "d1" rfl,
    (componentDidMount_flow parseQuery
      (fun _ => (Settlement.rejected ⟨"TypeError", "Failed to fetch"⟩ :
        Settlement String)) sampleEditUrl "?templateId=t1" "c1").2.1
      ⟨"TypeError", "Failed to fetch"⟩ rfl,
    (componentDidMount_flow parseQuery (fun _ => (Settlement.pending : Settlement String))
      sampleEditUrl "?templateId=t1" "c1").2.2.2.1 rfl⟩

end Outline
